import Mathlib

/-!
# Verification of the AgentBusters evaluation orchestration and scoring engine

Shallow embedding of the core of the AgentBusters repository:
* `src/src/cio_agent/orchestrator.py` (A2AOrchestrator: task assignment,
  pending-response slots, delivery, audit log, history filtering),
* `src/src/cio_agent/green_agent.py` (recommendation extraction, batch loop),
* `src/scripts/run_csv_eval.py` (batch loop),
and, where the implementing module is not part of the sources
(`cio_agent/models.py`, `cio_agent/evaluator.py`), definitions modelled from
the specification (data-model shapes, alpha-score formula, lookahead guard,
debate controller).

Python `asyncio.Future` objects are modelled as entries of an explicit heap
`futures : List (Nat × Option Payload)` (`none` = not done, `some v` = done
with result `v`); the dict `_pending_responses` is an association list from
string keys to future ids with first-match lookup.  `uuid`-generated message
ids are abstracted into a monotone counter.  Each `async def` that awaits a
future is split into a `_begin` step (create and register the future), a
`_finish` step (the future resolved and the `finally` block ran) and a
`_timeout` step (the `asyncio.TimeoutError` branch and the `finally` block).
-/

set_option autoImplicit false

namespace AgentBusters

/-- Modelled from the spec: the `Task` value object of `cio_agent/models.py`
(absent from the sources).  Only the fields the verified operations touch are
kept; the remaining fields are opaque to the orchestrator. -/
structure Task where
  question_id : String
  question : String
  ticker : String
  deadline_seconds : Nat
  deriving Repr, DecidableEq

/-- Modelled from the spec: the `AgentResponse` value object of
`cio_agent/models.py` (absent from the sources). -/
structure AgentResponse where
  agent_id : String
  task_id : String
  analysis : String
  deriving Repr, DecidableEq

/-- Modelled from the spec: the `DebateRebuttal` value object of
`cio_agent/models.py` (absent from the sources). -/
structure DebateRebuttal where
  agent_id : String
  task_id : String
  defense : String
  deriving Repr, DecidableEq

/-- A value stored in a pending-response future: the Python dict
`_pending_responses` holds both task responses and rebuttals. -/
inductive Payload where
  | response (r : AgentResponse)
  | rebuttal (b : DebateRebuttal)
  deriving Repr, DecidableEq

/-- Modelled from the spec: the `A2AMessageType` enumeration of
`cio_agent/models.py` (absent from the sources). -/
inductive A2AMessageType where
  | task_assignment
  | challenge
  | response
  | rebuttal
  deriving Repr, DecidableEq

/-- The structured payload of an `A2AMessage`, by message type. -/
inductive MessagePayload where
  | task (t : Task)
  | challengeBody (task_id : String) (counter_argument : String)
  | other
  deriving Repr, DecidableEq

/-- Modelled from the spec: the `A2AMessage` value object of
`cio_agent/models.py` (absent from the sources).  The `uuid`-based message id
is abstracted into a `Nat` drawn from a counter; the wall-clock timestamp is
not modelled (no verified property reads it). -/
structure A2AMessage where
  message_id : Nat
  sender_id : String
  receiver_id : String
  message_type : A2AMessageType
  payload : MessagePayload
  deriving Repr, DecidableEq

/-- State of `A2AOrchestrator` (`orchestrator.py`): the audit log
`message_log`, the pending-slot dict `_pending_responses` (key → future id),
the future heap, and freshness counters for future and message ids. -/
structure A2AOrchestrator where
  cio_agent_id : String
  message_log : List A2AMessage
  pending_responses : List (String × Nat)
  futures : List (Nat × Option Payload)
  next_future_id : Nat
  next_message_id : Nat
  deriving Repr, DecidableEq

/-- Python dict lookup `d.get(k)` on an association list (first binding
wins). -/
def alistLookup {α β : Type} [DecidableEq α] (k : α) :
    List (α × β) → Option β
  | [] => none
  | (k', v) :: rest => if k' = k then some v else alistLookup k rest

namespace A2AOrchestrator

/-- The fresh orchestrator of `A2AOrchestrator.__init__`. -/
def init (cio_agent_id : String) : A2AOrchestrator :=
  { cio_agent_id := cio_agent_id
    message_log := []
    pending_responses := []
    futures := []
    next_future_id := 0
    next_message_id := 0 }

/-- Dict update `d[k] = v` on an association list: the new binding shadows
and replaces any previous binding of `k`. -/
def dictInsert (k : String) (v : Nat) (l : List (String × Nat)) :
    List (String × Nat) :=
  (k, v) :: l.filter (fun p => p.1 ≠ k)

/-- Dict removal `d.pop(k, None)` on an association list. -/
def dictErase (k : String) (l : List (String × Nat)) : List (String × Nat) :=
  l.filter (fun p => p.1 ≠ k)

/-- Resolving a future: `future.set_result(v)` on the heap entry `fid`. -/
def setFutureResult (fid : Nat) (v : Payload)
    (l : List (Nat × Option Payload)) : List (Nat × Option Payload) :=
  l.map (fun p => if p.1 = fid then (p.1, some v) else p)

/-- The key `f"response_{agent_id}"` of `receive_task_response`. -/
def responseKey (agent_id : String) : String := "response_" ++ agent_id

/-- The key `f"rebuttal_{agent_id}"` of `receive_rebuttal`. -/
def rebuttalKey (agent_id : String) : String := "rebuttal_" ++ agent_id

/-- `_log_message`: append the message to the audit trail
(`self.message_log.append(message)`). -/
def log_message (st : A2AOrchestrator) (m : A2AMessage) : A2AOrchestrator :=
  { st with message_log := st.message_log ++ [m] }

/-- `send_task_assignment`: build the task-assignment message, log it, and
return it (the optional external `message_handler` side effect is outside the
orchestrator's own state). -/
def send_task_assignment (st : A2AOrchestrator) (agent_id : String)
    (task : Task) : A2AOrchestrator × A2AMessage :=
  let message : A2AMessage :=
    { message_id := st.next_message_id
      sender_id := st.cio_agent_id
      receiver_id := agent_id
      message_type := A2AMessageType.task_assignment
      payload := MessagePayload.task task }
  let st := { st with next_message_id := st.next_message_id + 1 }
  (st.log_message message, message)

/-- `send_challenge`: build the challenge message, log it, and return it. -/
def send_challenge (st : A2AOrchestrator) (agent_id : String)
    (task_id : String) (counter_argument : String) :
    A2AOrchestrator × A2AMessage :=
  let message : A2AMessage :=
    { message_id := st.next_message_id
      sender_id := st.cio_agent_id
      receiver_id := agent_id
      message_type := A2AMessageType.challenge
      payload := MessagePayload.challengeBody task_id counter_argument }
  let st := { st with next_message_id := st.next_message_id + 1 }
  (st.log_message message, message)

/-- Errors an orchestrator wait operation could signal (spec §7 taxonomy).
The embedding keeps an explicit error channel so that claims about
fail-fast behaviour are statable; the source bodies never raise, so every
path below returns `.ok`. -/
inductive OrchError where
  | duplicateAwait
  deriving Repr, DecidableEq

/-- First half of `receive_task_response`: create a fresh future and store it
in `_pending_responses` under the response key
(`self._pending_responses[response_key] = future` — an unconditional dict
assignment that replaces any binding already present).  Returns the new state
and the id of the future the caller will await. -/
def receive_task_response_begin (st : A2AOrchestrator) (agent_id : String) :
    Except OrchError (A2AOrchestrator × Nat) :=
  let fid := st.next_future_id
  Except.ok
    ({ st with
        pending_responses :=
          dictInsert (responseKey agent_id) fid st.pending_responses
        futures := (fid, none) :: st.futures
        next_future_id := fid + 1 }, fid)

/-- Second half of `receive_task_response` when the awaited future was
resolved before the timeout: the `await` returns the future's result and the
`finally` block pops the response key. -/
def receive_task_response_finish (st : A2AOrchestrator) (agent_id : String)
    (fid : Nat) : A2AOrchestrator × Option Payload :=
  ({ st with
      pending_responses := dictErase (responseKey agent_id) st.pending_responses },
    (alistLookup fid st.futures).join)

/-- Second half of `receive_task_response` on timeout: `asyncio.wait_for`
raised `asyncio.TimeoutError`, which the source catches and converts into the
distinguishable no-response result `None`; the `finally` block pops the
response key. -/
def receive_task_response_timeout (st : A2AOrchestrator) (agent_id : String) :
    A2AOrchestrator × Option Payload :=
  ({ st with
      pending_responses := dictErase (responseKey agent_id) st.pending_responses },
    none)

/-- `deliver_response`: if a pending slot exists for the agent's response key
and its future is not yet done, resolve it; otherwise the call changes
nothing (the response is dropped). -/
def deliver_response (st : A2AOrchestrator) (agent_id : String)
    (response : AgentResponse) : A2AOrchestrator :=
  match alistLookup (responseKey agent_id) st.pending_responses with
  | none => st
  | some fid =>
    match alistLookup fid st.futures with
    | some none =>
        { st with futures := setFutureResult fid (Payload.response response) st.futures }
    | _ => st

/-- First half of `receive_rebuttal`: same slot-registration pattern as
`receive_task_response_begin`, under the rebuttal key. -/
def receive_rebuttal_begin (st : A2AOrchestrator) (agent_id : String) :
    Except OrchError (A2AOrchestrator × Nat) :=
  let fid := st.next_future_id
  Except.ok
    ({ st with
        pending_responses :=
          dictInsert (rebuttalKey agent_id) fid st.pending_responses
        futures := (fid, none) :: st.futures
        next_future_id := fid + 1 }, fid)

/-- Second half of `receive_rebuttal` when the future was resolved. -/
def receive_rebuttal_finish (st : A2AOrchestrator) (agent_id : String)
    (fid : Nat) : A2AOrchestrator × Option Payload :=
  ({ st with
      pending_responses := dictErase (rebuttalKey agent_id) st.pending_responses },
    (alistLookup fid st.futures).join)

/-- Second half of `receive_rebuttal` on timeout. -/
def receive_rebuttal_timeout (st : A2AOrchestrator) (agent_id : String) :
    A2AOrchestrator × Option Payload :=
  ({ st with
      pending_responses := dictErase (rebuttalKey agent_id) st.pending_responses },
    none)

/-- `deliver_rebuttal`: mirror of `deliver_response` under the rebuttal
key. -/
def deliver_rebuttal (st : A2AOrchestrator) (agent_id : String)
    (rebuttal : DebateRebuttal) : A2AOrchestrator :=
  match alistLookup (rebuttalKey agent_id) st.pending_responses with
  | none => st
  | some fid =>
    match alistLookup fid st.futures with
    | some none =>
        { st with futures := setFutureResult fid (Payload.rebuttal rebuttal) st.futures }
    | _ => st

/-- `get_message_history`: start from the full log, filter by agent id
(sender or receiver) when one is given — Python's `if agent_id:` also skips
the filter for the empty string — then by message type when one is given. -/
def get_message_history (st : A2AOrchestrator) (agent_id : Option String)
    (message_type : Option A2AMessageType) : List A2AMessage :=
  let messages := st.message_log
  let messages :=
    match agent_id with
    | some a =>
        if a = "" then messages
        else messages.filter (fun m => m.sender_id = a ∨ m.receiver_id = a)
    | none => messages
  match message_type with
  | some ty => messages.filter (fun m => m.message_type = ty)
  | none => messages

end A2AOrchestrator

/-! ## Scoring engine (modelled from the spec)

`cio_agent/evaluator.py` is not part of the sources; only its callers are
(`scripts/run_demo.py` prints the formula, `green_agent.py` consumes the
result).  The definitions below follow spec §4.4 and §8. -/

/-- Modelled from the spec: the alpha-score formula of the Scoring Engine
(`cio_agent/evaluator.py`, absent from the sources):
`alpha = (roleScoreTotal * debateMultiplier) / (ln(1 + totalCostUsd) * (1 + lookaheadPenalty))`. -/
noncomputable def alphaScore (roleScoreTotal debateMult totalCostUsd
    lookaheadPen : ℝ) : ℝ :=
  (roleScoreTotal * debateMult) /
    (Real.log (1 + totalCostUsd) * (1 + lookaheadPen))

/-- Modelled from the spec: the floor cost substituted for a zero-cost run
(§4.4 "treat zero-cost runs as using a floor cost epsilon"; the spec leaves
the constant open, one cent is chosen and documented here). -/
noncomputable def costFloorEpsilon : ℝ := 1 / 100

/-- Numeric-invariant violations of the scoring engine (spec §7:
`InvalidCost`). -/
inductive ScoreError where
  | invalidCost
  deriving Repr, DecidableEq

/-- Modelled from the spec: the guarded alpha computation of the Scoring
Engine (`cio_agent/evaluator.py`, absent from the sources).  Negative cost is
rejected as a fatal `invalidCost` error (never clamped); a cost of exactly 0
is special-cased to the floor cost so the score stays defined and finite. -/
noncomputable def computeAlphaChecked (roleScoreTotal debateMult totalCostUsd
    lookaheadPen : ℝ) : Except ScoreError ℝ :=
  if totalCostUsd < 0 then Except.error ScoreError.invalidCost
  else if totalCostUsd = 0 then
    Except.ok (alphaScore roleScoreTotal debateMult costFloorEpsilon lookaheadPen)
  else
    Except.ok (alphaScore roleScoreTotal debateMult totalCostUsd lookaheadPen)

/-! ## Lookahead Guard (modelled from the spec)

The Lookahead Guard lives in the absent `cio_agent/evaluator.py`; the
definitions follow spec §4.2.  Dates are modelled as integers (ordinal
days); `none` is a fact whose effective date is unknown. -/

/-- A cited fact extracted from an agent response: the fact itself and its
effective/publication date when known. -/
structure CitedFact where
  fact : String
  effective_date : Option Int
  deriving Repr, DecidableEq

/-- One lookahead violation: the offending fact, its effective date and the
simulation date it violates (spec §3 `LookaheadPenalty`). -/
structure LookaheadViolation where
  fact : String
  effective_date : Int
  simulation_date : Int
  deriving Repr, DecidableEq

/-- Modelled from the spec: a cited fact is flagged iff its effective date is
known and strictly after the simulation date; unknown dates are never
penalized. -/
def isLookaheadViolation (simulation_date : Int) (f : CitedFact) : Bool :=
  match f.effective_date with
  | some d => simulation_date < d
  | none => false

/-- Deduplication of cited facts by the fact text, keeping the first
citation of each fact. -/
def dedupByFact : List CitedFact → List CitedFact
  | [] => []
  | f :: rest => f :: dedupByFact (rest.filter (fun g => g.fact ≠ f.fact))
termination_by l => l.length
decreasing_by
  simpa using Nat.lt_succ_of_le (List.length_filter_le _ rest)

/-- Modelled from the spec: the Lookahead Guard's violation list
(`cio_agent/evaluator.py`, absent from the sources).  Flag every cited fact
whose known effective date is strictly after the simulation date, then
deduplicate repeated citations of the same fact.  Every flagged fact has a
known date, so the `getD 0` default is never read. -/
def lookaheadViolations (simulation_date : Int) (facts : List CitedFact) :
    List LookaheadViolation :=
  (dedupByFact (facts.filter (isLookaheadViolation simulation_date))).map
    (fun f =>
      { fact := f.fact
        effective_date := f.effective_date.getD 0
        simulation_date := simulation_date })

/-! ## Debate Controller (modelled from the spec)

The Debate Controller lives in the absent `cio_agent/evaluator.py`; the
definitions follow spec §4.3 and §3 (`DebateResult`). -/

/-- Modelled from the spec: the ordered conviction enumeration.  The
evaluated tiers are ordered `weak < moderate < strong < unshaken`;
`not_evaluated` is the short-circuit outcome of a disabled debate. -/
inductive ConvictionLevel where
  | not_evaluated
  | weak
  | moderate
  | strong
  | unshaken
  deriving Repr, DecidableEq

/-- Rank of an evaluated conviction tier in the ordered enumeration
(`weak` is the lowest tier). -/
def convictionRank : ConvictionLevel → Nat
  | ConvictionLevel.not_evaluated => 0
  | ConvictionLevel.weak => 0
  | ConvictionLevel.moderate => 1
  | ConvictionLevel.strong => 2
  | ConvictionLevel.unshaken => 3

/-- Modelled from the spec: the fixed conviction-level → multiplier table
(spec §3 gives the documented range `[0.5, 1.2]`; the per-tier constants are
left open by §9 and the monotone table below is the choice documented
here). -/
def debateMultiplierTable : ConvictionLevel → ℚ
  | ConvictionLevel.not_evaluated => 1
  | ConvictionLevel.weak => 1 / 2
  | ConvictionLevel.moderate => 4 / 5
  | ConvictionLevel.strong => 1
  | ConvictionLevel.unshaken => 6 / 5

/-- Modelled from the spec: the `DebateResult` value object
(`cio_agent/models.py`, absent from the sources). -/
structure DebateResult where
  conviction_level : ConvictionLevel
  debate_multiplier : ℚ
  feedback : String
  deriving Repr, DecidableEq

/-- Outcome of the challenge/rebuttal exchange as seen by the controller:
either the rebuttal timed out, or it arrived and the external judge mapped
it to a conviction tier. -/
inductive RebuttalOutcome where
  | timedOut
  | received (judged : ConvictionLevel)
  deriving Repr, DecidableEq

/-- Modelled from the spec: the Debate Controller's result construction
(`cio_agent/evaluator.py`, absent from the sources).  Disabled debate
short-circuits to the neutral multiplier with conviction `not_evaluated`;
a rebuttal timeout forces the lowest evaluated tier; otherwise the judged
tier is mapped through the fixed multiplier table. -/
def runDebateController (conduct_debate : Bool) (outcome : RebuttalOutcome) :
    DebateResult :=
  if conduct_debate then
    match outcome with
    | RebuttalOutcome.timedOut =>
        { conviction_level := ConvictionLevel.weak
          debate_multiplier := debateMultiplierTable ConvictionLevel.weak
          feedback := "Rebuttal timed out; failure to defend counts against the agent" }
    | RebuttalOutcome.received judged =>
        { conviction_level := judged
          debate_multiplier := debateMultiplierTable judged
          feedback := "Judged rebuttal" }
  else
    { conviction_level := ConvictionLevel.not_evaluated
      debate_multiplier := debateMultiplierTable ConvictionLevel.not_evaluated
      feedback := "Debate disabled by configuration" }

/-! ## Batch evaluation loop

From the per-task loops of `GreenAgent.run` (`green_agent.py` lines 170–246)
and `scripts/run_csv_eval.py` `main` (lines 137–173): each iteration runs one
task inside `try`/`except` and appends either a complete result entry or an
error entry carrying `str(e)`.  The evaluation of a single task (task
generation plus `run_full_evaluation`, which may raise) is abstracted as a
parameter `evalOne : τ → Except ε ρ`. -/

/-- One batch outcome: a complete result entry or a structured failure entry
carrying the error reason. -/
inductive TaskOutcome (ε ρ : Type) where
  | success (result : ρ)
  | failure (error : ε)
  deriving Repr, DecidableEq

/-- The `try`/`except` body of one loop iteration. -/
def taskOutcomeOf {τ ε ρ : Type} (evalOne : τ → Except ε ρ) (t : τ) :
    TaskOutcome ε ρ :=
  match evalOne t with
  | Except.ok r => TaskOutcome.success r
  | Except.error e => TaskOutcome.failure e

/-- The batch loop: one outcome is appended per input task, in order. -/
def runBatch {τ ε ρ : Type} (evalOne : τ → Except ε ρ) :
    List τ → List (TaskOutcome ε ρ)
  | [] => []
  | t :: ts => taskOutcomeOf evalOne t :: runBatch evalOne ts

/-! ## Recommendation extraction (`green_agent.py` lines 280–293) -/

/-- Python's `str.lower()` restricted to the ASCII case mapping, applied
characterwise. -/
def strLower (s : String) : String := String.mk (s.data.map Char.toLower)

/-- Whether `needle` is a prefix of `hay` (character lists). -/
def startsWithChars : List Char → List Char → Bool
  | [], _ => true
  | _ :: _, [] => false
  | a :: as, b :: bs => a = b && startsWithChars as bs

/-- Whether `needle` occurs contiguously inside `hay` (character lists):
Python's `needle in hay` on strings. -/
def hasSubstr : List Char → List Char → Bool
  | needle, [] => needle.isEmpty
  | needle, c :: rest => startsWithChars needle (c :: rest) || hasSubstr needle rest

/-- Python's `needle in hay` membership test on strings. -/
def containsSub (hay needle : String) : Bool := hasSubstr needle.data hay.data

/-- `GreenAgent._extract_recommendation`: lowercase the response once, then
test the five keywords in fixed precedence order; `"Unknown"` when none
occurs.  (The source binds `response_lower` once; the lowering is repeated
here verbatim per test, which is the same value.) -/
def extract_recommendation (response : String) : String :=
  if containsSub (strLower response) "beat" then "Beat"
  else if containsSub (strLower response) "miss" then "Miss"
  else if containsSub (strLower response) "buy" then "Buy"
  else if containsSub (strLower response) "sell" then "Sell"
  else if containsSub (strLower response) "hold" then "Hold"
  else "Unknown"

/-! ## Helper lemmas -/

/-- Every entry of the deduplicated citation list is one of the original
citations. -/
theorem mem_of_mem_dedupByFact :
    ∀ (l : List CitedFact), ∀ g ∈ dedupByFact l, g ∈ l := by
  intro l
  induction l using dedupByFact.induct with
  | case1 =>
    intro g hg
    simp [dedupByFact] at hg
  | case2 f rest ih =>
    intro g hg
    rw [dedupByFact] at hg
    rcases List.mem_cons.mp hg with h1 | h2
    · exact h1 ▸ List.mem_cons_self _ _
    · exact List.mem_cons_of_mem _ (List.mem_of_mem_filter (ih g h2))

/-- After deduplication each fact text occurs once when it occurred at all,
and zero times otherwise. -/
theorem countP_dedupByFact (x : String) :
    ∀ (l : List CitedFact),
      (dedupByFact l).countP (fun g => g.fact = x)
        = if l.any (fun g => g.fact = x) then 1 else 0 := by
  intro l
  induction l using dedupByFact.induct with
  | case1 => simp [dedupByFact]
  | case2 f rest ih =>
    rw [dedupByFact, List.countP_cons]
    by_cases hfx : f.fact = x
    · have hzero : (dedupByFact (rest.filter fun g => g.fact ≠ f.fact)).countP
          (fun g => g.fact = x) = 0 := by
        apply List.countP_eq_zero.mpr
        intro g hg
        have hmem := mem_of_mem_dedupByFact _ g hg
        have hne := List.of_mem_filter hmem
        simp only [decide_eq_true_eq, decide_not, Bool.not_eq_true',
          decide_eq_false_iff_not] at hne ⊢
        intro hgx
        exact hne (hgx.trans hfx.symm)
      rw [hzero]
      simp [hfx, List.any_cons]
    · have hany : (rest.filter fun g => g.fact ≠ f.fact).any
          (fun g => g.fact = x) = rest.any (fun g => g.fact = x) := by
        rw [Bool.eq_iff_iff]
        simp only [List.any_eq_true, List.mem_filter, decide_eq_true_eq,
          decide_not, Bool.not_eq_true', decide_eq_false_iff_not]
        constructor
        · rintro ⟨g, ⟨hg, _⟩, hgx⟩
          exact ⟨g, hg, hgx⟩
        · rintro ⟨g, hg, hgx⟩
          refine ⟨g, ⟨hg, fun hgf => hfx (hgf ▸ hgx)⟩, hgx⟩
      rw [ih, hany, List.any_cons]
      simp [hfx]

/-! ## Theorems -/

/-- C5: every reported lookahead violation comes from a cited fact whose
known effective date is strictly after the simulation date; a fact with a
known date after the simulation date is reported exactly once no matter how
often it is cited; and a fact none of whose citations carry a date after the
simulation date (unknown dates included) never appears among the
violations. -/
theorem lookahead_guard_spec (simDate : Int) (facts : List CitedFact) :
    (∀ v ∈ lookaheadViolations simDate facts,
        v.simulation_date = simDate
        ∧ simDate < v.effective_date
        ∧ ∃ f ∈ facts, f.fact = v.fact
            ∧ f.effective_date = some v.effective_date)
    ∧ (∀ f ∈ facts, ∀ d : Int, f.effective_date = some d → simDate < d →
        (lookaheadViolations simDate facts).countP
          (fun v => v.fact = f.fact) = 1)
    ∧ (∀ x : String,
        (∀ f ∈ facts, f.fact = x →
          ∀ d : Int, f.effective_date = some d → d ≤ simDate) →
        ∀ v ∈ lookaheadViolations simDate facts, v.fact ≠ x) := by
  have hsound : ∀ v ∈ lookaheadViolations simDate facts,
      v.simulation_date = simDate
      ∧ simDate < v.effective_date
      ∧ ∃ f ∈ facts, f.fact = v.fact
          ∧ f.effective_date = some v.effective_date := by
    intro v hv
    rcases List.mem_map.mp hv with ⟨g, hg, rfl⟩
    have hgL := mem_of_mem_dedupByFact _ g hg
    rcases List.mem_filter.mp hgL with ⟨hgf, hviol⟩
    unfold isLookaheadViolation at hviol
    cases hd : g.effective_date with
    | none => rw [hd] at hviol; cases hviol
    | some d =>
      rw [hd] at hviol
      have hlt : simDate < d := by simpa using hviol
      refine ⟨rfl, ?_, g, hgf, rfl, ?_⟩
      · simpa [hd] using hlt
      · simp [hd]
  refine ⟨hsound, ?_, ?_⟩
  · intro f hf d hd hlt
    unfold lookaheadViolations
    rw [List.countP_map]
    have hcount := countP_dedupByFact f.fact
      (facts.filter (isLookaheadViolation simDate))
    have hany : (facts.filter (isLookaheadViolation simDate)).any
        (fun g => g.fact = f.fact) = true := by
      apply List.any_eq_true.mpr
      refine ⟨f, List.mem_filter.mpr ⟨hf, ?_⟩, by simp⟩
      unfold isLookaheadViolation
      rw [hd]
      simpa using hlt
    rw [hany] at hcount
    simpa using hcount
  · intro x hx v hv hvx
    rcases hsound v hv with ⟨_, hlt, f, hf, hfv, hdate⟩
    exact absurd hlt (not_lt.mpr (hx f hf (hfv.trans hvx) v.effective_date hdate))

/-- Witness for C5: with simulation date 100, a fact cited twice with
effective date 105 yields exactly one violation. -/
theorem lookahead_guard_spec_witness :
    (⟨"blackwell-demand", some 105⟩ : CitedFact) ∈
      ([⟨"blackwell-demand", some 105⟩, ⟨"blackwell-demand", some 105⟩,
        ⟨"q3-revenue", some 90⟩, ⟨"guidance", none⟩] : List CitedFact)
    ∧ (lookaheadViolations 100
        [⟨"blackwell-demand", some 105⟩, ⟨"blackwell-demand", some 105⟩,
          ⟨"q3-revenue", some 90⟩, ⟨"guidance", none⟩]).countP
        (fun v => v.fact = "blackwell-demand") = 1 :=
  ⟨by decide,
    (lookahead_guard_spec 100
        [⟨"blackwell-demand", some 105⟩, ⟨"blackwell-demand", some 105⟩,
          ⟨"q3-revenue", some 90⟩, ⟨"guidance", none⟩]).2.1
      ⟨"blackwell-demand", some 105⟩ (by decide) 105 rfl (by decide)⟩

/-- C10: `GreenAgent._extract_recommendation` is total and returns one of the
six strings `"Beat"`, `"Miss"`, `"Buy"`, `"Sell"`, `"Hold"`, `"Unknown"`;
matching is case-insensitive substring matching with fixed precedence
beat > miss > buy > sell > hold, and `"Unknown"` is returned iff none of the
five keywords occurs. -/
theorem extract_recommendation_cases (s : String) :
    (containsSub (strLower s) "beat" = true → extract_recommendation s = "Beat")
    ∧ (containsSub (strLower s) "beat" = false →
        containsSub (strLower s) "miss" = true →
        extract_recommendation s = "Miss")
    ∧ (containsSub (strLower s) "beat" = false →
        containsSub (strLower s) "miss" = false →
        containsSub (strLower s) "buy" = true →
        extract_recommendation s = "Buy")
    ∧ (containsSub (strLower s) "beat" = false →
        containsSub (strLower s) "miss" = false →
        containsSub (strLower s) "buy" = false →
        containsSub (strLower s) "sell" = true →
        extract_recommendation s = "Sell")
    ∧ (containsSub (strLower s) "beat" = false →
        containsSub (strLower s) "miss" = false →
        containsSub (strLower s) "buy" = false →
        containsSub (strLower s) "sell" = false →
        containsSub (strLower s) "hold" = true →
        extract_recommendation s = "Hold")
    ∧ (extract_recommendation s = "Unknown" ↔
        (containsSub (strLower s) "beat" = false
        ∧ containsSub (strLower s) "miss" = false
        ∧ containsSub (strLower s) "buy" = false
        ∧ containsSub (strLower s) "sell" = false
        ∧ containsSub (strLower s) "hold" = false))
    ∧ (extract_recommendation s = "Beat" ∨ extract_recommendation s = "Miss"
        ∨ extract_recommendation s = "Buy" ∨ extract_recommendation s = "Sell"
        ∨ extract_recommendation s = "Hold"
        ∨ extract_recommendation s = "Unknown") := by
  cases hbeat : containsSub (strLower s) "beat" <;>
    cases hmiss : containsSub (strLower s) "miss" <;>
      cases hbuy : containsSub (strLower s) "buy" <;>
        cases hsell : containsSub (strLower s) "sell" <;>
          cases hhold : containsSub (strLower s) "hold" <;>
            simp [extract_recommendation, hbeat, hmiss, hbuy, hsell, hhold]

/-- Witness for C10: a response containing both "BEAT" (uppercase) and
"miss" is classified as `"Beat"`. -/
theorem extract_recommendation_cases_witness :
    containsSub (strLower "Revenue will BEAT but EPS will miss") "beat" = true
    ∧ extract_recommendation "Revenue will BEAT but EPS will miss" = "Beat" :=
  ⟨by decide,
    (extract_recommendation_cases "Revenue will BEAT but EPS will miss").1
      (by decide)⟩

/-- C6: a disabled debate always yields multiplier 1 with conviction
`not_evaluated`; a rebuttal timeout always yields conviction `weak`, the
lowest tier of the ordered enumeration; and in every case the multiplier is
the fixed table applied to the result's conviction level. -/
theorem debate_controller_spec :
    (∀ o : RebuttalOutcome,
      (runDebateController false o).debate_multiplier = 1
      ∧ (runDebateController false o).conviction_level
          = ConvictionLevel.not_evaluated)
    ∧ ((runDebateController true RebuttalOutcome.timedOut).conviction_level
          = ConvictionLevel.weak
      ∧ (∀ l : ConvictionLevel, l ≠ ConvictionLevel.not_evaluated →
          convictionRank ConvictionLevel.weak ≤ convictionRank l))
    ∧ (∀ (e : Bool) (o : RebuttalOutcome),
        (runDebateController e o).debate_multiplier =
          debateMultiplierTable (runDebateController e o).conviction_level) := by
  refine ⟨fun o => ⟨rfl, rfl⟩, ⟨rfl, fun l _ => ?_⟩, fun e o => ?_⟩
  · cases l <;> decide
  · cases e <;> cases o <;> rfl

/-- Witness for C6 at concrete inputs: disabled debate on a timed-out
exchange gives multiplier 1, and tier `moderate` ranks at or above the
timeout tier `weak`. -/
theorem debate_controller_spec_witness :
    (runDebateController false RebuttalOutcome.timedOut).debate_multiplier = 1
    ∧ convictionRank ConvictionLevel.weak
        ≤ convictionRank ConvictionLevel.moderate :=
  ⟨(debate_controller_spec.1 RebuttalOutcome.timedOut).1,
    debate_controller_spec.2.1.2 ConvictionLevel.moderate (by decide)⟩

/-- C9: the batch loop produces exactly one outcome per input task, the i-th
outcome is a function of the i-th task alone (so one task's failure cannot
alter another's outcome), and every outcome is either a complete result
entry or a structured failure entry. -/
theorem runBatch_spec {τ ε ρ : Type} (evalOne : τ → Except ε ρ)
    (ts : List τ) :
    (runBatch evalOne ts).length = ts.length
    ∧ (∀ i : Nat, (runBatch evalOne ts)[i]? =
        (ts[i]?).map (taskOutcomeOf evalOne))
    ∧ (∀ o ∈ runBatch evalOne ts,
        (∃ r, o = TaskOutcome.success r)
        ∨ (∃ e, o = TaskOutcome.failure e)) := by
  have hmap : runBatch evalOne ts = ts.map (taskOutcomeOf evalOne) := by
    induction ts with
    | nil => rfl
    | cons t ts ih => simp [runBatch, ih]
  refine ⟨by rw [hmap]; simp, fun i => by rw [hmap]; simp, fun o ho => ?_⟩
  rw [hmap] at ho
  rcases List.mem_map.mp ho with ⟨t, _, rfl⟩
  unfold taskOutcomeOf
  cases evalOne t with
  | ok r => exact Or.inl ⟨r, rfl⟩
  | error e => exact Or.inr ⟨e, rfl⟩

/-- Witness for C9: a five-task batch whose first task fails still yields
five outcomes, and the failure outcome is a structured failure entry. -/
theorem runBatch_spec_witness :
    (runBatch (fun n : Nat =>
        if n = 0 then Except.error "malformed" else Except.ok n)
      [0, 1, 2, 3, 4]).length = ([0, 1, 2, 3, 4] : List Nat).length
    ∧ ((∃ r, (TaskOutcome.failure "malformed" : TaskOutcome String Nat)
          = TaskOutcome.success r)
      ∨ (∃ e, (TaskOutcome.failure "malformed" : TaskOutcome String Nat)
          = TaskOutcome.failure e)) :=
  ⟨(runBatch_spec (fun n : Nat =>
      if n = 0 then Except.error "malformed" else Except.ok n)
      [0, 1, 2, 3, 4]).1,
    (runBatch_spec (fun n : Nat =>
        if n = 0 then Except.error "malformed" else Except.ok n)
        [0, 1, 2, 3, 4]).2.2
      (TaskOutcome.failure "malformed") (by decide)⟩

/-- C4: a total cost of exactly 0 is special-cased to the floor cost, so the
alpha computation succeeds and its denominator is nonzero (the score is
defined and finite); a negative cost is rejected as the fatal `invalidCost`
error rather than clamped. -/
theorem computeAlphaChecked_spec (r m c p : ℝ) (hp : 0 ≤ p) (hc : c < 0) :
    computeAlphaChecked r m 0 p
        = Except.ok (alphaScore r m costFloorEpsilon p)
    ∧ Real.log (1 + costFloorEpsilon) * (1 + p) ≠ 0
    ∧ computeAlphaChecked r m c p = Except.error ScoreError.invalidCost := by
  refine ⟨?_, ?_, ?_⟩
  · unfold computeAlphaChecked
    norm_num
  · have h1 : 0 < Real.log (1 + costFloorEpsilon) := by
      apply Real.log_pos
      unfold costFloorEpsilon
      norm_num
    have h2 : 0 < 1 + p := by linarith
    exact ne_of_gt (mul_pos h1 h2)
  · unfold computeAlphaChecked
    rw [if_pos hc]

/-- Witness for C4 at concrete inputs (role score 80, multiplier 1.1,
penalty 0.2): cost −1 is rejected as `invalidCost`. -/
theorem computeAlphaChecked_spec_witness :
    (0 : ℝ) ≤ (1 / 5 : ℝ)
    ∧ (-1 : ℝ) < 0
    ∧ computeAlphaChecked 80 (11 / 10) (-1) (1 / 5)
        = Except.error ScoreError.invalidCost :=
  ⟨by norm_num, by norm_num,
    (computeAlphaChecked_spec 80 (11 / 10) (-1) (1 / 5)
      (by norm_num) (by norm_num)).2.2⟩

open A2AOrchestrator in
/-- A fresh dict binding is found by lookup. -/
theorem alistLookup_dictInsert_self (k : String) (v : Nat)
    (l : List (String × Nat)) : alistLookup k (dictInsert k v l) = some v := by
  simp [dictInsert, alistLookup]

open A2AOrchestrator in
/-- After `d.pop(k, None)` the key `k` is absent. -/
theorem alistLookup_dictErase_self (k : String) (l : List (String × Nat)) :
    alistLookup k (dictErase k l) = none := by
  induction l with
  | nil => rfl
  | cons p t ih =>
    rcases p with ⟨k', v⟩
    by_cases h : k' = k
    · simpa [dictErase, List.filter_cons, h] using ih
    · simp only [dictErase, List.filter_cons, decide_not, decide_eq_true_eq,
        h, not_false_eq_true, decide_True, Bool.not_false, if_true,
        ite_true] at ih ⊢
      simpa [alistLookup, h] using ih

open A2AOrchestrator in
/-- Counterexample for C2: with a pending unresolved slot already registered
for agent `"a"`, a second `receive_task_response` for `"a"` does not fail: it
returns successfully and replaces the slot with a fresh future (id 1,
shadowing the waiter on future 0); the mirror holds for `receive_rebuttal`. -/
theorem receive_begin_no_duplicate_error :
    receive_task_response_begin
        { cio_agent_id := "cio", message_log := [],
          pending_responses := [("response_a", 0)], futures := [(0, none)],
          next_future_id := 1, next_message_id := 0 } "a"
      = Except.ok
        ({ cio_agent_id := "cio", message_log := [],
           pending_responses := [("response_a", 1)],
           futures := [(1, none), (0, none)],
           next_future_id := 2, next_message_id := 0 }, 1)
    ∧ receive_rebuttal_begin
        { cio_agent_id := "cio", message_log := [],
          pending_responses := [("rebuttal_a", 0)], futures := [(0, none)],
          next_future_id := 1, next_message_id := 0 } "a"
      = Except.ok
        ({ cio_agent_id := "cio", message_log := [],
           pending_responses := [("rebuttal_a", 1)],
           futures := [(1, none), (0, none)],
           next_future_id := 2, next_message_id := 0 }, 1) :=
  ⟨rfl, rfl⟩

open A2AOrchestrator in
/-- C2 (amended): a second `receive_task_response` (resp. `receive_rebuttal`)
for an agent whose slot is still pending raises no error; it silently
overwrites the pending slot with a fresh future, so the first waiter's future
is dropped from the dict and can no longer be resolved by a delivery. -/
theorem receive_begin_overwrites_spec (st : A2AOrchestrator) (a : String)
    (fid0 fid1 : Nat)
    (hresp : alistLookup (responseKey a) st.pending_responses = some fid0)
    (hfid0 : fid0 < st.next_future_id)
    (hreb : alistLookup (rebuttalKey a) st.pending_responses = some fid1)
    (hfid1 : fid1 < st.next_future_id) :
    (∃ st₁, receive_task_response_begin st a
        = Except.ok (st₁, st.next_future_id)
      ∧ alistLookup (responseKey a) st₁.pending_responses
          = some st.next_future_id
      ∧ st.next_future_id ≠ fid0)
    ∧ (∃ st₂, receive_rebuttal_begin st a
        = Except.ok (st₂, st.next_future_id)
      ∧ alistLookup (rebuttalKey a) st₂.pending_responses
          = some st.next_future_id
      ∧ st.next_future_id ≠ fid1) := by
  refine ⟨⟨_, rfl, ?_, ?_⟩, ⟨_, rfl, ?_, ?_⟩⟩
  · exact alistLookup_dictInsert_self _ _ _
  · omega
  · exact alistLookup_dictInsert_self _ _ _
  · omega

open A2AOrchestrator in
/-- Witness for C2's amended statement at a concrete state with both a
response slot (future 0) and a rebuttal slot (future 1) pending. -/
theorem receive_begin_overwrites_spec_witness :
    (∃ st₁, receive_task_response_begin
        { cio_agent_id := "cio", message_log := [],
          pending_responses := [("response_a", 0), ("rebuttal_a", 1)],
          futures := [(0, none), (1, none)],
          next_future_id := 2, next_message_id := 0 } "a"
        = Except.ok (st₁, 2)
      ∧ alistLookup (responseKey "a") st₁.pending_responses = some 2
      ∧ 2 ≠ 0)
    ∧ (∃ st₂, receive_rebuttal_begin
        { cio_agent_id := "cio", message_log := [],
          pending_responses := [("response_a", 0), ("rebuttal_a", 1)],
          futures := [(0, none), (1, none)],
          next_future_id := 2, next_message_id := 0 } "a"
        = Except.ok (st₂, 2)
      ∧ alistLookup (rebuttalKey "a") st₂.pending_responses = some 2
      ∧ 2 ≠ 1) :=
  receive_begin_overwrites_spec
    { cio_agent_id := "cio", message_log := [],
      pending_responses := [("response_a", 0), ("rebuttal_a", 1)],
      futures := [(0, none), (1, none)],
      next_future_id := 2, next_message_id := 0 } "a" 0 1
    (by decide) (by decide) (by decide) (by decide)

open A2AOrchestrator in
/-- C3: a `receive_task_response` that times out returns the distinguishable
no-response result `none` (not an error) and removes its pending slot; a
subsequent `receive_task_response` for the same agent then succeeds once the
reply is delivered: the delivered payload is returned and its slot is
released in turn. -/
theorem receive_timeout_releases_slot (st st1 st2 st3 : A2AOrchestrator)
    (a : String) (r : AgentResponse) (fid1 fid2 : Nat) (o1 : Option Payload)
    (h1 : receive_task_response_begin st a = Except.ok (st1, fid1))
    (h2 : receive_task_response_timeout st1 a = (st2, o1))
    (h3 : receive_task_response_begin st2 a = Except.ok (st3, fid2)) :
    o1 = none
    ∧ alistLookup (responseKey a) st2.pending_responses = none
    ∧ (receive_task_response_finish (deliver_response st3 a r) a fid2).2
        = some (Payload.response r)
    ∧ alistLookup (responseKey a)
        (receive_task_response_finish
          (deliver_response st3 a r) a fid2).1.pending_responses
        = none := by
  simp only [receive_task_response_begin, Except.ok.injEq,
    Prod.mk.injEq] at h1 h3
  obtain ⟨h1s, h1f⟩ := h1
  obtain ⟨h3s, h3f⟩ := h3
  simp only [receive_task_response_timeout, Prod.mk.injEq] at h2
  obtain ⟨h2s, h2o⟩ := h2
  subst h1s h1f h3s h3f h2s h2o
  refine ⟨rfl, alistLookup_dictErase_self _ _, ?_,
    alistLookup_dictErase_self _ _⟩
  simp [deliver_response, receive_task_response_finish, dictInsert,
    setFutureResult, alistLookup]

open A2AOrchestrator in
/-- Witness for C3: the full timeout-then-redeliver run from a fresh
orchestrator, with the delivered payload handed back by the second wait. -/
theorem receive_timeout_releases_slot_witness :
    (receive_task_response_finish
        (deliver_response
          { cio_agent_id := "cio", message_log := [],
            pending_responses := [("response_a", 1)],
            futures := [(1, none), (0, none)],
            next_future_id := 2, next_message_id := 0 }
          "a" ⟨"a", "t", "analysis"⟩) "a" 1).2
      = some (Payload.response ⟨"a", "t", "analysis"⟩) :=
  (receive_timeout_releases_slot (A2AOrchestrator.init "cio") _ _ _ "a"
    ⟨"a", "t", "analysis"⟩ 0 1 none rfl rfl rfl).2.2.1

open A2AOrchestrator in
/-- C7: delivering a response (or rebuttal) with no pending slot for its key,
or while the slot's future is already resolved, changes nothing: the
orchestrator state is returned unchanged, so the message is dropped and
nothing is buffered. -/
theorem deliver_drop_spec (st : A2AOrchestrator) (a : String)
    (r : AgentResponse) (b : DebateRebuttal) :
    (alistLookup (responseKey a) st.pending_responses = none →
      deliver_response st a r = st)
    ∧ (∀ fid v, alistLookup (responseKey a) st.pending_responses = some fid →
        alistLookup fid st.futures = some (some v) →
        deliver_response st a r = st)
    ∧ (alistLookup (rebuttalKey a) st.pending_responses = none →
      deliver_rebuttal st a b = st)
    ∧ (∀ fid v, alistLookup (rebuttalKey a) st.pending_responses = some fid →
        alistLookup fid st.futures = some (some v) →
        deliver_rebuttal st a b = st) := by
  refine ⟨fun h => ?_, fun fid v h1 h2 => ?_, fun h => ?_,
    fun fid v h1 h2 => ?_⟩
  · unfold deliver_response
    simp only [h]
  · unfold deliver_response
    simp only [h1, h2]
  · unfold deliver_rebuttal
    simp only [h]
  · unfold deliver_rebuttal
    simp only [h1, h2]

open A2AOrchestrator in
/-- Witness for C7: on a fresh orchestrator (no slot pending) a delivery is a
no-op, and on a state whose slot's future is already resolved a second
delivery is likewise a no-op. -/
theorem deliver_drop_spec_witness :
    deliver_response (A2AOrchestrator.init "cio") "a" ⟨"a", "t", "x"⟩
        = A2AOrchestrator.init "cio"
    ∧ deliver_response
        { cio_agent_id := "cio", message_log := [],
          pending_responses := [("response_a", 0)],
          futures := [(0, some (Payload.response ⟨"a", "t", "x"⟩))],
          next_future_id := 1, next_message_id := 0 } "a" ⟨"a", "t", "y"⟩
      = { cio_agent_id := "cio", message_log := [],
          pending_responses := [("response_a", 0)],
          futures := [(0, some (Payload.response ⟨"a", "t", "x"⟩))],
          next_future_id := 1, next_message_id := 0 } :=
  ⟨(deliver_drop_spec (A2AOrchestrator.init "cio") "a" ⟨"a", "t", "x"⟩
      ⟨"a", "t", "d"⟩).1 rfl,
    (deliver_drop_spec
      { cio_agent_id := "cio", message_log := [],
        pending_responses := [("response_a", 0)],
        futures := [(0, some (Payload.response ⟨"a", "t", "x"⟩))],
        next_future_id := 1, next_message_id := 0 } "a" ⟨"a", "t", "y"⟩
      ⟨"a", "t", "d"⟩).2.1 0 (Payload.response ⟨"a", "t", "x"⟩)
      (by decide) (by decide)⟩

open A2AOrchestrator in
/-- C8: each send operation appends exactly its one message to the end of
the audit log; no orchestrator operation removes or modifies an existing log
entry (every non-send operation leaves the log equal, and the sends only
append); and `get_message_history` is a pure read returning a subsequence of
the log in original order, whose entries match the requested agent-id and
message-type filters. -/
theorem audit_log_spec (st : A2AOrchestrator) (a tid carg : String)
    (t : Task) (r : AgentResponse) (b : DebateRebuttal) (fid : Nat)
    (aId : Option String) (mty : Option A2AMessageType) :
    (send_task_assignment st a t).1.message_log
        = st.message_log ++ [(send_task_assignment st a t).2]
    ∧ (send_challenge st a tid carg).1.message_log
        = st.message_log ++ [(send_challenge st a tid carg).2]
    ∧ (∀ st' f, receive_task_response_begin st a = Except.ok (st', f) →
        st'.message_log = st.message_log)
    ∧ (receive_task_response_timeout st a).1.message_log = st.message_log
    ∧ (receive_task_response_finish st a fid).1.message_log = st.message_log
    ∧ (∀ st' f, receive_rebuttal_begin st a = Except.ok (st', f) →
        st'.message_log = st.message_log)
    ∧ (receive_rebuttal_timeout st a).1.message_log = st.message_log
    ∧ (receive_rebuttal_finish st a fid).1.message_log = st.message_log
    ∧ (deliver_response st a r).message_log = st.message_log
    ∧ (deliver_rebuttal st a b).message_log = st.message_log
    ∧ (get_message_history st aId mty).Sublist st.message_log
    ∧ (∀ x, aId = some x → x ≠ "" →
        ∀ m ∈ get_message_history st aId mty,
          m.sender_id = x ∨ m.receiver_id = x)
    ∧ (∀ ty, mty = some ty →
        ∀ m ∈ get_message_history st aId mty, m.message_type = ty) := by
  refine ⟨rfl, rfl, ?_, rfl, rfl, ?_, rfl, rfl, ?_, ?_, ?_, ?_, ?_⟩
  · intro st' f h
    simp only [receive_task_response_begin, Except.ok.injEq,
      Prod.mk.injEq] at h
    obtain ⟨hs, _⟩ := h
    subst hs
    rfl
  · intro st' f h
    simp only [receive_rebuttal_begin, Except.ok.injEq, Prod.mk.injEq] at h
    obtain ⟨hs, _⟩ := h
    subst hs
    rfl
  · unfold deliver_response
    split
    · rfl
    · split <;> rfl
  · unfold deliver_rebuttal
    split
    · rfl
    · split <;> rfl
  · unfold get_message_history
    rcases aId with _ | x
    · rcases mty with _ | ty
      · exact List.Sublist.refl _
      · exact List.filter_sublist _
    · rcases mty with _ | ty <;> by_cases hx : x = "" <;>
        simp only [hx, if_true, if_false, ite_true, ite_false,
          if_pos, if_neg, not_false_eq_true] <;>
        first
          | exact List.Sublist.refl _
          | exact List.filter_sublist _
          | exact (List.filter_sublist _).trans (List.filter_sublist _)
  · rintro x rfl hne m hm
    rcases mty with _ | ty <;>
      simp only [get_message_history] at hm <;>
      rw [if_neg hne] at hm
    · have := List.of_mem_filter hm
      simpa using this
    · have hm' := List.mem_of_mem_filter hm
      have := List.of_mem_filter hm'
      simpa using this
  · rintro ty rfl m hm
    unfold get_message_history at hm
    have := List.of_mem_filter hm
    simpa using this

open A2AOrchestrator in
/-- Witness for C8: registering a wait on a fresh orchestrator leaves the
audit log unchanged; the hypothesis of the begin-conjunct is discharged by
computation. -/
theorem audit_log_spec_witness :
    ({ cio_agent_id := "cio", message_log := [],
       pending_responses := [("response_a", 0)], futures := [(0, none)],
       next_future_id := 1, next_message_id := 0 } :
        A2AOrchestrator).message_log
      = (A2AOrchestrator.init "cio").message_log :=
  (audit_log_spec (A2AOrchestrator.init "cio") "a" "t1" "why"
    ⟨"q", "question", "NVDA", 300⟩ ⟨"a", "t", "x"⟩ ⟨"a", "t", "d"⟩ 0
    none none).2.2.1 _ 0 rfl

/-- C1: the alpha score is exactly
`(roleScore * multiplier) / (ln(1 + cost) * (1 + penalty))`, and on the valid
domain (role score in `[0, 100]`, multiplier in the documented range
`[0.5, 1.2]`, cost strictly positive, penalty nonnegative) it is
non-decreasing in the role score and in the multiplier and non-increasing in
the cost and in the penalty. -/
theorem alphaScore_spec (r m c p r' m' c' p' : ℝ)
    (hr0 : 0 ≤ r) (hr1 : r ≤ 100)
    (hm0 : 1 / 2 ≤ m) (hm1 : m ≤ 6 / 5)
    (hc : 0 < c) (hp : 0 ≤ p)
    (hrr : r ≤ r') (hr'1 : r' ≤ 100)
    (hmm : m ≤ m') (hm'1 : m' ≤ 6 / 5)
    (hcc : c ≤ c') (hpp : p ≤ p') :
    alphaScore r m c p = (r * m) / (Real.log (1 + c) * (1 + p))
    ∧ alphaScore r m c p ≤ alphaScore r' m c p
    ∧ alphaScore r m c p ≤ alphaScore r m' c p
    ∧ alphaScore r m c' p ≤ alphaScore r m c p
    ∧ alphaScore r m c p' ≤ alphaScore r m c p := by
  have hlog : 0 < Real.log (1 + c) := Real.log_pos (by linarith)
  have hlog' : Real.log (1 + c) ≤ Real.log (1 + c') :=
    Real.log_le_log (by linarith) (by linarith)
  have hden : 0 < Real.log (1 + c) * (1 + p) :=
    mul_pos hlog (by linarith)
  have hden' : 0 < Real.log (1 + c') * (1 + p) :=
    mul_pos (lt_of_lt_of_le hlog hlog') (by linarith)
  have hdenp : 0 < Real.log (1 + c) * (1 + p') :=
    mul_pos hlog (by linarith)
  have hnum : 0 ≤ r * m := mul_nonneg hr0 (by linarith)
  refine ⟨rfl, ?_, ?_, ?_, ?_⟩
  · unfold alphaScore
    exact (div_le_div_right hden).mpr
      (mul_le_mul_of_nonneg_right hrr (by linarith))
  · unfold alphaScore
    exact (div_le_div_right hden).mpr (mul_le_mul_of_nonneg_left hmm hr0)
  · unfold alphaScore
    rw [div_le_div_iff hden' hden]
    exact mul_le_mul_of_nonneg_left
      (mul_le_mul_of_nonneg_right hlog' (by linarith)) hnum
  · unfold alphaScore
    rw [div_le_div_iff hdenp hden]
    exact mul_le_mul_of_nonneg_left
      (mul_le_mul_of_nonneg_left (by linarith) (le_of_lt hlog)) hnum

/-- Witness for C1 at the spec §8 example point (role score 80, multiplier
1.1, cost 0.05, penalty 0.2; comparison point with cost 0.1). -/
theorem alphaScore_spec_witness :
    ((0 : ℝ) ≤ 80 ∧ (80 : ℝ) ≤ 100 ∧ (1 / 2 : ℝ) ≤ 11 / 10
      ∧ (11 / 10 : ℝ) ≤ 6 / 5 ∧ (0 : ℝ) < 1 / 20 ∧ (0 : ℝ) ≤ 1 / 5)
    ∧ alphaScore 80 (11 / 10) (1 / 20) (1 / 5)
        = (80 * (11 / 10)) / (Real.log (1 + 1 / 20) * (1 + 1 / 5))
    ∧ alphaScore 80 (11 / 10) (1 / 10) (1 / 5)
        ≤ alphaScore 80 (11 / 10) (1 / 20) (1 / 5) := by
  have h := alphaScore_spec 80 (11 / 10) (1 / 20) (1 / 5)
    90 (6 / 5) (1 / 10) (1 / 2)
    (by norm_num) (by norm_num) (by norm_num) (by norm_num) (by norm_num)
    (by norm_num) (by norm_num) (by norm_num) (by norm_num) (by norm_num)
    (by norm_num) (by norm_num)
  exact ⟨⟨by norm_num, by norm_num, by norm_num, by norm_num, by norm_num,
    by norm_num⟩, h.1, h.2.2.2.1⟩

end AgentBusters
